import Mathlib

/-
Shallow embedding of the timestamp recognition and conversion core of the
QTKit clipboard utility (src/main.py, class SimpleTimestampViewer: methods
get_timestamp, _is_valid_timestamp and convert_timestamp).

Modelling conventions, used throughout:

* Python floats are modelled as exact rationals together with the special
  values inf, -inf and nan (inductive PyFloat).  Parsing a decimal literal
  yields its exact rational value; the comparisons and the division used by
  the code are modelled on PyFloat with IEEE semantics for the special
  values (every comparison with nan is false).  The bounds used by the code
  (1e12, 946684800, 2524608000) are exactly representable binary64 values,
  so the comparisons performed by the code agree with the exact rational
  comparisons on the candidates the recognizer produces.
* Character classes are modelled over ASCII: the regex class for digits is
  the ASCII digits, word characters are ASCII alphanumerics plus the
  underscore, and str.strip removes the ASCII whitespace characters.
* The float() grammar is embedded faithfully: optional surrounding
  whitespace, an optional sign, the case-insensitive words inf, infinity
  and nan, and decimal literals with optional fractional part, optional
  exponent, and underscores allowed only between digits.
* datetime.fromtimestamp converts through the HOST time zone.  The host
  zone is modelled as a fixed offset (off, in seconds) passed as an
  explicit parameter; datetime.utcfromtimestamp is the same conversion at
  offset 0.  Both round the float to whole microseconds (pyTimestampSec,
  round half to even as CPython does) and raise for instants outside the
  years 1..9999 (MINSEC .. MAXSEC); the try/except of convert_timestamp
  turns any such failure into an identical pair of error strings (errPair;
  the message text is modelled representatively).
-/

/- ASCII digit, as matched by the regex digit class and the float grammar. -/
def isDig (c : Char) : Bool :=
  c == '0' || c == '1' || c == '2' || c == '3' || c == '4' ||
  c == '5' || c == '6' || c == '7' || c == '8' || c == '9'

/- ASCII whitespace stripped by str.strip() and by float(). -/
def isPyWs (c : Char) : Bool :=
  c == ' ' || c == '\t' || c == '\n' || c == '\r' || c == '\x0b' || c == '\x0c'

/- Regex word character (ASCII model): alphanumeric or underscore. -/
def wordChar (c : Char) : Bool :=
  c.isAlphanum || c == '_'

/- Numeric value of an ASCII digit character. -/
def digVal (c : Char) : Nat := c.toNat - 48

/- Remove the maximal suffix of characters satisfying p (str.rstrip). -/
def rstripList (p : Char → Bool) : List Char → List Char
  | [] => []
  | c :: r =>
    let r2 := rstripList p r
    if r2 = [] ∧ p c = true then [] else c :: r2

/- str.strip() on a character list: drop whitespace from both ends. -/
def pyStripList (l : List Char) : List Char :=
  rstripList isPyWs (l.dropWhile isPyWs)

/- str.strip() on strings, as performed by get_timestamp on its input. -/
def pyStrip (s : String) : String := String.mk (pyStripList s.data)

/- str.rstrip("0"), the trailing-zero trimming used on the decimal part. -/
def rstripZeros (s : String) : String :=
  String.mk (rstripList (fun c => c == '0') s.data)

/- Optional leading sign of a float literal; true means negative. -/
def parseSign (l : List Char) : Bool × List Char :=
  match l with
  | [] => (false, [])
  | c :: r =>
    if c = '+' then (false, r)
    else if c = '-' then (true, r)
    else (false, c :: r)

/- Split a character list at the first separator character, if any. -/
def splitAtChar (isSep : Char → Bool) : List Char → List Char × Option (List Char)
  | [] => ([], none)
  | c :: r =>
    if isSep c then ([], some r)
    else
      let p := splitAtChar isSep r
      (c :: p.1, p.2)

/- Tail of a digit group with underscores; the flag records whether the
   previous character was an underscore (which must then be followed by a
   digit, and must not be followed by another underscore or the end). -/
def uRest : Bool → List Char → Bool
  | u, [] => !u
  | u, c :: r => if c = '_' then !u && uRest true r else isDig c && uRest false r

/- A valid digit group of the float() grammar: nonempty, starts with a
   digit, underscores only between digits. -/
def uPart (l : List Char) : Bool :=
  match l with
  | [] => false
  | c :: r => isDig c && uRest false r

/- Drop the underscores of a digit group. -/
def stripU (l : List Char) : List Char :=
  l.filter (fun c => decide (c ≠ '_'))

/- Value of a list of digit characters, most significant first. -/
def digitsToNat (l : List Char) : Nat :=
  l.foldl (fun a c => 10 * a + digVal c) 0

/- Mantissa of a float literal: [digits][.digits], at least one digit.
   The exact value int.frac is (int * 10^k + frac) / 10^k with k the digit
   count of the fractional group (built with mkRat, which normalizes). -/
def parseMantissa (l : List Char) : Option ℚ :=
  match splitAtChar (fun c => c == '.') l with
  | (ip, none) =>
    if uPart ip = true then some ((digitsToNat (stripU ip) : ℚ)) else none
  | (ip, some fp) =>
    if (ip = [] ∨ uPart ip = true) ∧ (fp = [] ∨ uPart fp = true) ∧ ¬(ip = [] ∧ fp = []) then
      some (mkRat
        ((digitsToNat (stripU ip) : ℤ) * (10 : ℤ) ^ (stripU fp).length +
          (digitsToNat (stripU fp) : ℤ))
        ((10 : ℕ) ^ (stripU fp).length))
    else none

/- Decimal part of the float() grammar: mantissa with optional exponent;
   the exponent scales the exact value by 10^e or 10^(-e). -/
def parseDec (l : List Char) : Option ℚ :=
  match splitAtChar (fun c => c == 'e' || c == 'E') l with
  | (m, none) => parseMantissa m
  | (m, some e) =>
    let sp := parseSign e
    if uPart sp.2 = true then
      match parseMantissa m with
      | some v =>
        some (if sp.1 then mkRat v.num (v.den * (10 : ℕ) ^ digitsToNat (stripU sp.2))
          else mkRat (v.num * (10 : ℤ) ^ digitsToNat (stripU sp.2)) v.den)
      | none => none
    else none

/- A Python float value: an exact rational or one of the special values. -/
inductive PyFloat where
  | finite (q : ℚ)
  | pinf
  | ninf
  | nan
deriving DecidableEq

/- float(text): strip whitespace, optional sign, then the case-insensitive
   special words or a decimal literal.  none models the ValueError raised
   on malformed input. -/
def pyParseFloat (s : String) : Option PyFloat :=
  let l := pyStripList s.data
  let sp := parseSign l
  let low := sp.2.map Char.toLower
  if low = "inf".data ∨ low = "infinity".data then
    some (if sp.1 then PyFloat.ninf else PyFloat.pinf)
  else if low = "nan".data then some PyFloat.nan
  else
    match parseDec sp.2 with
    | some q => some (PyFloat.finite (if sp.1 then -q else q))
    | none => none

/- timestamp_val > 1e12, with IEEE behaviour on the special values. -/
def pyGtE12 : PyFloat → Bool
  | PyFloat.finite q => decide ((1000000000000 : ℚ) < q)
  | PyFloat.pinf => true
  | PyFloat.ninf => false
  | PyFloat.nan => false

/- timestamp_val / 1000 on a PyFloat (num/den divided by 1000 is
   num/(den*1000), built with mkRat so it stays in lowest terms). -/
def pyDiv1000 : PyFloat → PyFloat
  | PyFloat.finite q => PyFloat.finite (mkRat q.num (q.den * 1000))
  | PyFloat.pinf => PyFloat.pinf
  | PyFloat.ninf => PyFloat.ninf
  | PyFloat.nan => PyFloat.nan

/- The millisecond normalization performed by the code. -/
def pyNormalize (v : PyFloat) : PyFloat :=
  if pyGtE12 v then pyDiv1000 v else v

/- 946684800 <= timestamp_val <= 2524608000, false on inf, -inf and nan. -/
def pyInRangeB : PyFloat → Bool
  | PyFloat.finite q => decide ((946684800 : ℚ) ≤ q) && decide (q ≤ (2524608000 : ℚ))
  | PyFloat.pinf => false
  | PyFloat.ninf => false
  | PyFloat.nan => false

/- Range test applied to the result of float(text), none meaning the
   ValueError branch of the try/except. -/
def validVal : Option PyFloat → Bool
  | none => false
  | some v => pyInRangeB (pyNormalize v)

/- SimpleTimestampViewer._is_valid_timestamp: length gate 10..20, float
   parse, millisecond normalization, inclusive range check. -/
def _is_valid_timestamp (text : String) : Bool :=
  if text.length < 10 ∨ 20 < text.length then false
  else validVal (pyParseFloat text)

/- Length of the leading run of digit characters. -/
def leadDigits (l : List Char) : Nat := (l.takeWhile isDig).length

/- Word-boundary condition on the left of a match whose first character is
   a digit: the previous character, if any, must not be a word character. -/
def prevNonWord : Option Char → Bool
  | none => true
  | some p => !wordChar p

/- Word-boundary condition on the right of a match whose last character is
   a digit: the next character, if any, must not be a word character. -/
def nextNonWord : List Char → Bool
  | [] => true
  | c :: _ => !wordChar c

/- Match of the first pattern (digits{10,13} dot digits+ between word
   boundaries) anchored at the current position, given the previous
   character.  Closed form of the backtracking search: the quantifier must
   consume the entire leading digit run (every digit is a word character,
   so stopping inside a run fails the following dot or boundary), the dot
   must follow it, and the plus must consume the entire fractional run. -/
def matchP1 (prev : Option Char) (l : List Char) : Option (List Char) :=
  let r := leadDigits l
  if prevNonWord prev = true ∧ 10 ≤ r ∧ r ≤ 13 then
    match l.drop r with
    | '.' :: rest =>
      let m := leadDigits rest
      if 1 ≤ m ∧ nextNonWord (rest.drop m) = true then some (l.take (r + 1 + m)) else none
    | _ => none
  else none

/- Match of the second pattern (digits{10,13} between word boundaries)
   anchored at the current position; same closed form. -/
def matchP2 (prev : Option Char) (l : List Char) : Option (List Char) :=
  let r := leadDigits l
  if prevNonWord prev = true ∧ 10 ≤ r ∧ r ≤ 13 ∧ nextNonWord (l.drop r) = true then
    some (l.take r)
  else none

/- Leftmost match of a pattern: scan the start positions left to right,
   remembering the previous character.  This is re.findall followed by
   taking the first element, as the code does. -/
def reFindFirst (step : Option Char → List Char → Option (List Char)) :
    Option Char → List Char → Option (List Char)
  | prev, [] => step prev []
  | prev, c :: rest =>
    match step prev (c :: rest) with
    | some m => some m
    | none => reFindFirst step (some c) rest

/- Second iteration of the pattern loop of get_timestamp: the plain digit
   pattern, with fall-through to (text, False). -/
def tryPat2 (t : String) : String × Bool :=
  match reFindFirst matchP2 none t.data with
  | some c =>
    if _is_valid_timestamp (String.mk c) then (String.mk c, true) else (t, false)
  | none => (t, false)

/- Detect-mode scan: first pattern first; if its first match fails the
   validity predicate the loop moves to the second pattern (it does not try
   later matches of the first). -/
def detectScan (t : String) : String × Bool :=
  match reFindFirst matchP1 none t.data with
  | some c =>
    if _is_valid_timestamp (String.mk c) then (String.mk c, true) else tryPat2 t
  | none => tryPat2 t

/- SimpleTimestampViewer.get_timestamp: strip the input; in detect mode
   scan with the two patterns in priority order, otherwise validate the
   whole stripped text. -/
def get_timestamp (detect_mode : Bool) (text : String) : String × Bool :=
  let t := pyStrip text
  if detect_mode then detectScan t else (t, _is_valid_timestamp t)

/- Civil calendar date from days since the Unix epoch (proleptic Gregorian,
   valid for all days our callers pass: year 1 onward). -/
def civilFromDays (days : ℤ) : ℤ × ℕ × ℕ :=
  let z := (days + 719468).toNat
  let era := z / 146097
  let doe := z % 146097
  let yoe := (doe - doe / 1460 + doe / 36524 - doe / 146096) / 365
  let y := yoe + era * 400
  let doy := doe - (365 * yoe + yoe / 4 - yoe / 100)
  let mp := (5 * doy + 2) / 153
  let d := doy - (153 * mp + 2) / 5 + 1
  let m := if mp < 10 then mp + 3 else mp - 9
  (if m ≤ 2 then (y : ℤ) + 1 else (y : ℤ), m, d)

/- A civil date and time, the fields a strftime of the code can show. -/
structure CivilDT where
  year : ℤ
  month : ℕ
  day : ℕ
  hour : ℕ
  minute : ℕ
  second : ℕ
deriving DecidableEq

/- Civil date and time of an epoch second count. -/
def civilOfSec (S : ℤ) : CivilDT :=
  let days := Int.ediv S 86400
  let sod := (Int.emod S 86400).toNat
  let ymd := civilFromDays days
  { year := ymd.1, month := ymd.2.1, day := ymd.2.2,
    hour := sod / 3600, minute := sod % 3600 / 60, second := sod % 60 }

/- Truncation of a rational toward zero (C modf splits the float so);
   Int.tdiv truncates toward zero and the denominator is positive. -/
def ratTrunc (q : ℚ) : ℤ :=
  Int.tdiv q.num (q.den : ℤ)

/- Round half to even, the rounding CPython round() applies; written with
   integer arithmetic on the numerator and denominator (f is the floor of
   q since the denominator is positive, and r2 / den is the fractional
   part doubled). -/
def pyRoundHalfEven (q : ℚ) : ℤ :=
  let f := Int.fdiv q.num (q.den : ℤ)
  let r2 := 2 * (q.num - f * (q.den : ℤ))
  if r2 < (q.den : ℤ) then f
  else if (q.den : ℤ) < r2 then f + 1
  else if Int.emod f 2 = 0 then f else f + 1

/- The whole-second part datetime keeps for a float timestamp: CPython
   splits off the fraction, rounds it to microseconds half-to-even, and
   carries an overflowing or negative microsecond count into the seconds.
   The fractional part t - ti, scaled by 10^6, is the exact rational
   ((num - ti*den) * 10^6) / den. -/
def pyTimestampSec (t : ℚ) : ℤ :=
  let ti := ratTrunc t
  let us := pyRoundHalfEven (mkRat ((t.num - ti * (t.den : ℤ)) * 1000000) t.den)
  if 1000000 ≤ us then ti + 1 else if us < 0 then ti - 1 else ti

/- Zero-padded decimal fields of the strftime format string. -/
def pad2 (n : ℕ) : String :=
  if n < 10 then "0" ++ toString n else toString n

def pad4 (n : ℕ) : String :=
  if n < 10 then "000" ++ toString n
  else if n < 100 then "00" ++ toString n
  else if n < 1000 then "0" ++ toString n
  else toString n

/- strftime with the format used by the code. -/
def fmtCivil (c : CivilDT) : String :=
  pad4 c.year.toNat ++ "-" ++ pad2 c.month ++ "-" ++ pad2 c.day ++ " " ++
  pad2 c.hour ++ ":" ++ pad2 c.minute ++ ":" ++ pad2 c.second

/- Least and greatest epoch second datetime can represent (year 1 to 9999);
   outside this window the datetime constructors raise. -/
def MINSEC : ℤ := -62135596800
def MAXSEC : ℤ := 253402300799

/- True when either datetime conversion of convert_timestamp raises for
   this host offset. -/
def rangeBad (off S : ℤ) : Bool :=
  decide (S < MINSEC) || decide (MAXSEC < S) ||
  decide (S + off < MINSEC) || decide (MAXSEC < S + off)

/- Element 1 of text.split("."): the characters after the first dot and
   before the next dot, empty when there is no dot (the code only reads it
   under has_decimal, which guarantees the dot exists). -/
def afterFirstDotSeg (l : List Char) : List Char :=
  match splitAtChar (fun c => c == '.') l with
  | (_, none) => []
  | (_, some rest) => (splitAtChar (fun c => c == '.') rest).1

/- String.take via the character list (s[:n] of Python). -/
def strTake (s : String) (n : ℕ) : String :=
  String.mk (s.data.take n)

/- The decimal text the code extracts: the split(".")[1] substring with
   trailing zero characters stripped. -/
def origDec (ts : String) : String :=
  rstripZeros (String.mk (afterFirstDotSeg ts.data))

/- Millisecond normalization of the parsed finite value (division by 1000
   written as mkRat num (den*1000), the same exact rational). -/
def normSeconds (q : ℚ) : ℚ :=
  if (1000000000000 : ℚ) < q then mkRat q.num (q.den * 1000) else q

/- The base formatted string of an epoch second count. -/
def baseFmt (S : ℤ) : String := fmtCivil (civilOfSec S)

/- The identical error pair returned by the except branch. -/
def errPair (m : String) : String × String :=
  ("Error: " ++ m, "Error: " ++ m)

/- The display preferences convert_timestamp reads. -/
structure DisplayPreferences where
  show_decimal : Bool
  decimal_places : ℕ
  show_full_decimal : Bool

/- Body of convert_timestamp once float(timestamp_str) has been evaluated. -/
def convertVal (off : ℤ) (p : DisplayPreferences) (ts : String) :
    Option PyFloat → String × String
  | none => errPair ("could not convert string to float: " ++ ts)
  | some PyFloat.pinf => errPair "timestamp out of range or not a number"
  | some PyFloat.ninf => errPair "timestamp out of range or not a number"
  | some PyFloat.nan => errPair "timestamp out of range or not a number"
  | some (PyFloat.finite q) =>
    let has_decimal := ts.data.contains '.'
    let original_decimal := if has_decimal then origDec ts else ""
    let S := pyTimestampSec (normSeconds q)
    if rangeBad off S then errPair "timestamp out of range for platform time functions"
    else
      let gmt_base := baseFmt S
      let vn_base := baseFmt (S + off)
      if p.show_decimal && has_decimal && !(original_decimal == "") then
        if p.show_full_decimal then
          (gmt_base ++ "." ++ original_decimal, vn_base ++ "." ++ original_decimal)
        else
          let decimal_part := strTake original_decimal p.decimal_places
          if decimal_part == "" then (gmt_base, vn_base)
          else (gmt_base ++ "." ++ decimal_part, vn_base ++ "." ++ decimal_part)
      else (gmt_base, vn_base)

/- SimpleTimestampViewer.convert_timestamp, with the host zone as the
   explicit fixed offset off (seconds east of UTC); the UTC string is the
   conversion at offset 0, the local string the conversion at off. -/
def convert_timestamp (off : ℤ) (p : DisplayPreferences) (ts : String) : String × String :=
  convertVal off p ts (pyParseFloat ts)

/- One clipboard event processed end to end: recognize, then format the
   recognized string. -/
def runPipeline (dm : Bool) (off : ℤ) (p : DisplayPreferences) (t : String) :
    (String × Bool) × (String × String) :=
  let r := get_timestamp dm t
  (r, convert_timestamp off p r.1)

/- Case analysis on an ASCII digit character. -/
theorem digChars {c : Char} (h : isDig c = true) :
    c = '0' ∨ c = '1' ∨ c = '2' ∨ c = '3' ∨ c = '4' ∨
    c = '5' ∨ c = '6' ∨ c = '7' ∨ c = '8' ∨ c = '9' := by
  simp only [isDig, Bool.or_eq_true, beq_iff_eq] at h
  tauto

theorem dig_not_ws {c : Char} (h : isDig c = true) : isPyWs c = false := by
  rcases digChars h with rfl | rfl | rfl | rfl | rfl | rfl | rfl | rfl | rfl | rfl <;> decide

theorem dig_ne_plus {c : Char} (h : isDig c = true) : c ≠ '+' := by
  rcases digChars h with rfl | rfl | rfl | rfl | rfl | rfl | rfl | rfl | rfl | rfl <;> decide

theorem dig_ne_minus {c : Char} (h : isDig c = true) : c ≠ '-' := by
  rcases digChars h with rfl | rfl | rfl | rfl | rfl | rfl | rfl | rfl | rfl | rfl <;> decide

theorem dig_ne_und {c : Char} (h : isDig c = true) : c ≠ '_' := by
  rcases digChars h with rfl | rfl | rfl | rfl | rfl | rfl | rfl | rfl | rfl | rfl <;> decide

theorem dig_not_dot {c : Char} (h : isDig c = true) : (c == '.') = false := by
  rcases digChars h with rfl | rfl | rfl | rfl | rfl | rfl | rfl | rfl | rfl | rfl <;> decide

theorem dig_not_exp {c : Char} (h : isDig c = true) : (c == 'e' || c == 'E') = false := by
  rcases digChars h with rfl | rfl | rfl | rfl | rfl | rfl | rfl | rfl | rfl | rfl <;> decide

theorem dig_lower_ne_i {c : Char} (h : isDig c = true) : Char.toLower c ≠ 'i' := by
  rcases digChars h with rfl | rfl | rfl | rfl | rfl | rfl | rfl | rfl | rfl | rfl <;> decide

theorem dig_lower_ne_n {c : Char} (h : isDig c = true) : Char.toLower c ≠ 'n' := by
  rcases digChars h with rfl | rfl | rfl | rfl | rfl | rfl | rfl | rfl | rfl | rfl <;> decide

theorem dig_word {c : Char} (h : isDig c = true) : wordChar c = true := by
  rcases digChars h with rfl | rfl | rfl | rfl | rfl | rfl | rfl | rfl | rfl | rfl <;> decide

theorem ws_not_dig {c : Char} (h : isPyWs c = true) : isDig c = false := by
  simp only [isPyWs, Bool.or_eq_true, beq_iff_eq] at h
  have h2 : c = ' ' ∨ c = '\t' ∨ c = '\n' ∨ c = '\r' ∨ c = '\x0b' ∨ c = '\x0c' := by tauto
  rcases h2 with rfl | rfl | rfl | rfl | rfl | rfl <;> decide

/- rstrip leaves a list alone when no character satisfies the predicate. -/
theorem rstripList_no_p {p : Char → Bool} :
    ∀ {l : List Char}, (∀ c ∈ l, p c = false) → rstripList p l = l := by
  intro l
  induction l with
  | nil => intro _; rfl
  | cons c r ih =>
    intro h
    have hr := ih (fun d hd => h d (List.mem_cons_of_mem _ hd))
    have hc := h c (List.mem_cons_self _ _)
    simp [rstripList, hr, hc]

theorem pyStripList_all_dig {l : List Char} (h : l.all isDig = true) :
    pyStripList l = l := by
  have hall : ∀ c ∈ l, isDig c = true := by simpa [List.all_eq_true] using h
  have hws : ∀ c ∈ l, isPyWs c = false := fun c hc => dig_not_ws (hall c hc)
  unfold pyStripList
  have hdw : l.dropWhile isPyWs = l := by
    cases l with
    | nil => rfl
    | cons c r => simp [List.dropWhile_cons, hws c (by simp)]
  rw [hdw]
  exact rstripList_no_p hws

theorem parseSign_dig {c : Char} {r : List Char} (h : isDig c = true) :
    parseSign (c :: r) = (false, c :: r) := by
  simp [parseSign, dig_ne_plus h, dig_ne_minus h]

theorem splitAtChar_no_sep {isSep : Char → Bool} :
    ∀ {l : List Char}, (∀ c ∈ l, isSep c = false) → splitAtChar isSep l = (l, none) := by
  intro l
  induction l with
  | nil => intro _; rfl
  | cons c r ih =>
    intro h
    simp [splitAtChar, h c (by simp), ih (fun d hd => h d (by simp [hd]))]

theorem uRest_all_dig : ∀ {l : List Char}, l.all isDig = true → uRest false l = true := by
  intro l
  induction l with
  | nil => intro _; rfl
  | cons c r ih =>
    intro h
    simp only [List.all_cons, Bool.and_eq_true] at h
    simp [uRest, dig_ne_und h.1, h.1, ih h.2]

theorem uPart_all_dig {l : List Char} (hne : l ≠ []) (h : l.all isDig = true) :
    uPart l = true := by
  cases l with
  | nil => exact absurd rfl hne
  | cons c r =>
    simp only [List.all_cons, Bool.and_eq_true] at h
    simp [uPart, h.1, uRest_all_dig h.2]

theorem stripU_all_dig {l : List Char} (h : l.all isDig = true) : stripU l = l := by
  have hall : ∀ c ∈ l, isDig c = true := by simpa [List.all_eq_true] using h
  unfold stripU
  apply List.filter_eq_self.mpr
  intro a ha
  simpa using dig_ne_und (hall a ha)

theorem parseMantissa_all_dig {l : List Char} (hne : l ≠ []) (h : l.all isDig = true) :
    parseMantissa l = some ((digitsToNat l : ℚ)) := by
  have hall : ∀ c ∈ l, isDig c = true := by simpa [List.all_eq_true] using h
  have hsep : ∀ c ∈ l, (c == '.') = false := fun c hc => dig_not_dot (hall c hc)
  simp [parseMantissa, splitAtChar_no_sep hsep, uPart_all_dig hne h, stripU_all_dig h]

theorem parseDec_all_dig {l : List Char} (hne : l ≠ []) (h : l.all isDig = true) :
    parseDec l = some ((digitsToNat l : ℚ)) := by
  have hall : ∀ c ∈ l, isDig c = true := by simpa [List.all_eq_true] using h
  have hsep : ∀ c ∈ l, (c == 'e' || c == 'E') = false := fun c hc => dig_not_exp (hall c hc)
  simp [parseDec, splitAtChar_no_sep hsep, parseMantissa_all_dig hne h]

/- float() on an all-digit string is its exact integer value. -/
theorem pyParseFloat_all_dig {l : List Char} (hne : l ≠ []) (h : l.all isDig = true) :
    pyParseFloat (String.mk l) = some (PyFloat.finite ((digitsToNat l : ℚ))) := by
  have hall : ∀ c ∈ l, isDig c = true := by simpa [List.all_eq_true] using h
  cases l with
  | nil => exact absurd rfl hne
  | cons c r =>
    have hc : isDig c = true := hall c (by simp)
    simp [pyParseFloat, pyStripList_all_dig h, parseSign_dig hc,
      parseDec_all_dig hne h, dig_lower_ne_i hc, dig_lower_ne_n hc]

/- Helper for C7: the second pattern branch leaves the scanned text in the
   first component whenever it does not return a valid candidate. -/
theorem tryPat2_invalid_fst {u : String} (h : (tryPat2 u).2 = false) :
    (tryPat2 u).1 = u := by
  unfold tryPat2 at h ⊢
  cases h1 : reFindFirst matchP2 none u.data with
  | none => rfl
  | some c =>
    rw [h1] at h
    have h2 : (if _is_valid_timestamp (String.mk c) = true
        then ((String.mk c), true) else (u, false)).2 = false := h
    show (if _is_valid_timestamp (String.mk c) = true
        then ((String.mk c), true) else (u, false)).1 = u
    by_cases hv : _is_valid_timestamp (String.mk c) = true
    · rw [if_pos hv] at h2
      cases h2
    · rw [if_neg hv]

/- Helper for C7: same for the whole detect-mode scan. -/
theorem detectScan_invalid_fst {u : String} (h : (detectScan u).2 = false) :
    (detectScan u).1 = u := by
  unfold detectScan at h ⊢
  cases h1 : reFindFirst matchP1 none u.data with
  | none =>
    rw [h1] at h
    exact tryPat2_invalid_fst h
  | some c =>
    rw [h1] at h
    have h2 : (if _is_valid_timestamp (String.mk c) = true
        then ((String.mk c), true) else tryPat2 u).2 = false := h
    show (if _is_valid_timestamp (String.mk c) = true
        then ((String.mk c), true) else tryPat2 u).1 = u
    by_cases hv : _is_valid_timestamp (String.mk c) = true
    · rw [if_pos hv] at h2
      cases h2
    · rw [if_neg hv] at h2 ⊢
      exact tryPat2_invalid_fst h2

/- C1.  The claim asserts the local string is always exactly 7 hours ahead
   of the UTC string, independent of the host zone.  The code computes the
   local string with datetime.fromtimestamp, i.e. through the host zone:
   below, with the host at offset 0 (a UTC host), both strings of
   convert_timestamp("1700000000") are equal, 0 hours apart; only with the
   host at offset 25200 (= +7 h, Vietnam) does the pair come out 7 hours
   apart as the claim demands. -/
theorem convert_timestamp_uses_host_offset :
    convert_timestamp 0 ⟨true, 3, false⟩ "1700000000" =
      ("2023-11-14 22:13:20", "2023-11-14 22:13:20") ∧
    convert_timestamp 25200 ⟨true, 3, false⟩ "1700000000" =
      ("2023-11-14 22:13:20", "2023-11-15 05:13:20") := by
  constructor <;> decide

/- C2.  _is_valid_timestamp(s) is true exactly when the length of s is in
   [10, 20], s parses as a float, and the normalized value (divided by 1000
   when above 1e12) lies in [946684800, 2524608000]; and the millisecond
   string "1700000000000" is valid. -/
theorem valid_timestamp_iff :
    (∀ s : String, _is_valid_timestamp s = true ↔
      (10 ≤ s.length ∧ s.length ≤ 20 ∧
        ∃ v, pyParseFloat s = some v ∧ pyInRangeB (pyNormalize v) = true)) ∧
    _is_valid_timestamp "1700000000000" = true := by
  constructor
  · intro s
    unfold _is_valid_timestamp
    by_cases h : s.length < 10 ∨ 20 < s.length
    · rw [if_pos h]
      constructor
      · intro hff; exact absurd hff (by decide)
      · rintro ⟨h1, h2, -⟩; omega
    · rw [if_neg h]
      push_neg at h
      cases hp : pyParseFloat s with
      | none =>
        simp only [validVal]
        constructor
        · intro hff; exact absurd hff (by decide)
        · rintro ⟨-, -, v, hv, -⟩; cases hv
      | some v =>
        simp only [validVal]
        constructor
        · intro hr; exact ⟨by omega, by omega, v, rfl, hr⟩
        · rintro ⟨-, -, w, hw, hr⟩
          cases hw
          exact hr
  · decide

/- Witness for C2: the valid side of the equivalence at a concrete input. -/
theorem valid_timestamp_iff_witness :
    10 ≤ ("1700000000" : String).length ∧ ("1700000000" : String).length ≤ 20 ∧
      ∃ v, pyParseFloat "1700000000" = some v ∧ pyInRangeB (pyNormalize v) = true :=
  (valid_timestamp_iff.1 "1700000000").mp (by decide)

/- C6.  convert_timestamp never lets a failure escape: whenever
   float(timestamp_str) raises (parse returns none), or the parsed value is
   one of the special floats the datetime constructors reject, or the
   normalized value falls outside what datetime can represent, the function
   returns a pair of two identical strings carrying the failure reason. -/
theorem convert_timestamp_error_pairs :
    (∀ (off : ℤ) (p : DisplayPreferences) (ts : String),
      pyParseFloat ts = none →
      ∃ m, convert_timestamp off p ts = ("Error: " ++ m, "Error: " ++ m)) ∧
    (∀ (off : ℤ) (p : DisplayPreferences) (ts : String),
      (pyParseFloat ts = some PyFloat.pinf ∨ pyParseFloat ts = some PyFloat.ninf ∨
        pyParseFloat ts = some PyFloat.nan) →
      ∃ m, convert_timestamp off p ts = ("Error: " ++ m, "Error: " ++ m)) ∧
    (∀ (off : ℤ) (p : DisplayPreferences) (ts : String) (q : ℚ),
      pyParseFloat ts = some (PyFloat.finite q) →
      rangeBad off (pyTimestampSec (normSeconds q)) = true →
      ∃ m, convert_timestamp off p ts = ("Error: " ++ m, "Error: " ++ m)) := by
  refine ⟨?_, ?_, ?_⟩
  · intro off p ts hp
    unfold convert_timestamp
    rw [hp]
    exact ⟨_, rfl⟩
  · intro off p ts hp
    unfold convert_timestamp
    rcases hp with hp | hp | hp <;> rw [hp] <;> exact ⟨_, rfl⟩
  · intro off p ts q hp hr
    unfold convert_timestamp
    rw [hp]
    simp only [convertVal, hr, if_true]
    exact ⟨_, rfl⟩

/- Witness for C6: a concrete malformed input yields the identical error
   pair. -/
theorem convert_timestamp_error_pairs_witness :
    ∃ m, convert_timestamp 0 ⟨true, 3, false⟩ "abc" = ("Error: " ++ m, "Error: " ++ m) :=
  convert_timestamp_error_pairs.1 0 ⟨true, 3, false⟩ "abc" (by decide)

/- C7 counterexample.  The claim says the string component returned on a
   failed recognition equals the original input character for character,
   including leading or trailing whitespace.  get_timestamp strips its
   input first and returns the stripped text: on the input " x" (leading
   space, recognition fails) it returns "x", which differs from " x". -/
theorem get_timestamp_not_verbatim :
    get_timestamp false " x" = ("x", false) ∧ ("x" : String) ≠ " x" := by
  constructor
  · rfl
  · decide

/- C7 as amended: on every failed recognition, in both modes, the string
   component is the stripped input text (hence equal to the original
   exactly when the original carries no leading or trailing whitespace,
   as is the case for the already-stripped clipboard text the caller
   passes). -/
theorem get_timestamp_invalid_fst (dm : Bool) (t : String)
    (h : (get_timestamp dm t).2 = false) : (get_timestamp dm t).1 = pyStrip t := by
  cases dm with
  | false => rfl
  | true =>
    have he : get_timestamp true t = detectScan (pyStrip t) := rfl
    rw [he] at h ⊢
    exact detectScan_invalid_fst h

/- Witness for the amended C7. -/
theorem get_timestamp_invalid_fst_witness :
    (get_timestamp false "ab").1 = pyStrip "ab" :=
  get_timestamp_invalid_fst false "ab" (by decide)

/- C9.  recognize and format are pure functions of the input text, the
   detect flag, the preferences and the host offset: running the pipeline
   twice on identical arguments yields identical results, as there is no
   other state for the embedded functions to read or retain. -/
theorem pipeline_deterministic :
    ∀ (dm : Bool) (off : ℤ) (p : DisplayPreferences) (t : String),
      runPipeline dm off p t = runPipeline dm off p t :=
  fun _ _ _ _ => rfl

/- C3.  Detect mode scans with the decimal pattern first and the plain
   digit pattern second: the first pattern's first match wins when it
   passes the validity predicate, otherwise the second pattern's first
   match is tried; and on "order id 1700000000 confirmed" detect mode
   extracts the valid candidate "1700000000" while whole-text mode rejects
   the same input. -/
theorem get_timestamp_detect_priority :
    (∀ (t : String) (c : List Char),
      reFindFirst matchP1 none (pyStrip t).data = some c →
      _is_valid_timestamp (String.mk c) = true →
      get_timestamp true t = (String.mk c, true)) ∧
    (∀ (t : String) (c : List Char),
      (∀ c1, reFindFirst matchP1 none (pyStrip t).data = some c1 →
        _is_valid_timestamp (String.mk c1) = false) →
      reFindFirst matchP2 none (pyStrip t).data = some c →
      _is_valid_timestamp (String.mk c) = true →
      get_timestamp true t = (String.mk c, true)) ∧
    get_timestamp true "order id 1700000000 confirmed" = ("1700000000", true) ∧
    get_timestamp false "order id 1700000000 confirmed" =
      ("order id 1700000000 confirmed", false) := by
  refine ⟨?_, ?_, by decide, by decide⟩
  · intro t c h1 hv
    have he : get_timestamp true t = detectScan (pyStrip t) := rfl
    rw [he]
    unfold detectScan
    rw [h1]
    simp [hv]
  · intro t c hall h2 hv
    have he : get_timestamp true t = detectScan (pyStrip t) := rfl
    rw [he]
    unfold detectScan
    cases h1 : reFindFirst matchP1 none (pyStrip t).data with
    | none =>
      unfold tryPat2
      rw [h2]
      simp [hv]
    | some c1 =>
      have hinv := hall c1 h1
      simp only [hinv, Bool.false_eq_true, if_false]
      unfold tryPat2
      rw [h2]
      simp [hv]

/- Witness for C3: the first pattern's first match on a concrete text is
   valid and returned. -/
theorem get_timestamp_detect_priority_witness :
    get_timestamp true "t 1700000000.5 z" = (String.mk "1700000000.5".data, true) :=
  get_timestamp_detect_priority.1 "t 1700000000.5 z" "1700000000.5".data
    (by decide) (by decide)

/- C4.  With show_decimal and show_full_decimal both set, the formatter
   appends a dot and the original decimal text with its trailing zeros
   stripped (literal trimming, not rounding) to both output strings,
   ignoring decimal_places; concretely "1700000000.1200" yields the suffix
   ".12", not ".120". -/
theorem convert_full_decimal_suffix :
    (∀ (off : ℤ) (p : DisplayPreferences) (ts : String) (q : ℚ),
      p.show_decimal = true → p.show_full_decimal = true →
      pyParseFloat ts = some (PyFloat.finite q) →
      ts.data.contains '.' = true →
      (origDec ts == "") = false →
      rangeBad off (pyTimestampSec (normSeconds q)) = false →
      convert_timestamp off p ts =
        (baseFmt (pyTimestampSec (normSeconds q)) ++ "." ++ origDec ts,
         baseFmt (pyTimestampSec (normSeconds q) + off) ++ "." ++ origDec ts)) ∧
    convert_timestamp 0 ⟨true, 3, true⟩ "1700000000.1200" =
      ("2023-11-14 22:13:20.12", "2023-11-14 22:13:20.12") := by
  refine ⟨?_, by decide⟩
  intro off p ts q hsd hfd hp hdec hod hr
  have hdec2 : '.' ∈ ts.data := by simpa using hdec
  have hod2 : ¬(origDec ts = "") := by simpa using hod
  unfold convert_timestamp
  rw [hp]
  simp [convertVal, hdec2, hod2, hsd, hfd, hr]

/- Witness for C4: the universal clause applied at a concrete candidate
   with decimal_places 5, still overridden by show_full_decimal. -/
theorem convert_full_decimal_suffix_witness :
    convert_timestamp 0 ⟨true, 5, true⟩ "1700000000.50" =
      (baseFmt (pyTimestampSec (normSeconds (mkRat 3400000001 2))) ++ "." ++
        origDec "1700000000.50",
       baseFmt (pyTimestampSec (normSeconds (mkRat 3400000001 2)) + 0) ++ "." ++
        origDec "1700000000.50") :=
  convert_full_decimal_suffix.1 0 ⟨true, 5, true⟩ "1700000000.50" (mkRat 3400000001 2)
    rfl rfl (by decide) (by decide) (by decide) (by decide)

/- C5.  With show_decimal set and show_full_decimal clear, the formatter
   appends a dot and the first decimal_places characters of the stripped
   original decimal text to both strings, and falls back to the bare base
   format when that slice is empty; concretely "1700000000.123456" with 3
   places yields the suffix ".123" on both strings. -/
theorem convert_truncated_decimal_suffix :
    (∀ (off : ℤ) (p : DisplayPreferences) (ts : String) (q : ℚ),
      p.show_decimal = true → p.show_full_decimal = false →
      pyParseFloat ts = some (PyFloat.finite q) →
      ts.data.contains '.' = true →
      (origDec ts == "") = false →
      rangeBad off (pyTimestampSec (normSeconds q)) = false →
      convert_timestamp off p ts =
        (if strTake (origDec ts) p.decimal_places == "" then
          (baseFmt (pyTimestampSec (normSeconds q)),
           baseFmt (pyTimestampSec (normSeconds q) + off))
         else
          (baseFmt (pyTimestampSec (normSeconds q)) ++ "." ++
            strTake (origDec ts) p.decimal_places,
           baseFmt (pyTimestampSec (normSeconds q) + off) ++ "." ++
            strTake (origDec ts) p.decimal_places))) ∧
    convert_timestamp 0 ⟨true, 3, false⟩ "1700000000.123456" =
      ("2023-11-14 22:13:20.123", "2023-11-14 22:13:20.123") := by
  refine ⟨?_, by decide⟩
  intro off p ts q hsd hfd hp hdec hod hr
  have hdec2 : '.' ∈ ts.data := by simpa using hdec
  have hod2 : ¬(origDec ts = "") := by simpa using hod
  unfold convert_timestamp
  rw [hp]
  simp [convertVal, hdec2, hod2, hsd, hfd, hr]

/- Witness for C5: decimal_places 0 slices an empty suffix and the bare
   base format is returned. -/
theorem convert_truncated_decimal_suffix_witness :
    convert_timestamp 0 ⟨true, 0, false⟩ "1700000000.5" =
      (if strTake (origDec "1700000000.5") 0 == "" then
        (baseFmt (pyTimestampSec (normSeconds (mkRat 3400000001 2))),
         baseFmt (pyTimestampSec (normSeconds (mkRat 3400000001 2)) + 0))
       else
        (baseFmt (pyTimestampSec (normSeconds (mkRat 3400000001 2))) ++ "." ++
          strTake (origDec "1700000000.5") 0,
         baseFmt (pyTimestampSec (normSeconds (mkRat 3400000001 2)) + 0) ++ "." ++
          strTake (origDec "1700000000.5") 0)) :=
  convert_truncated_decimal_suffix.1 0 ⟨true, 0, false⟩ "1700000000.5" (mkRat 3400000001 2)
    rfl rfl (by decide) (by decide) (by decide) (by decide)

/- C8.  The validity predicate is boundary-inclusive: any all-numeric
   10-character string with value exactly 946684800 (the lower range
   bound) is valid, any such string one unit below the bound is invalid,
   and both range bounds and both length bounds (10 and 20) are inclusive
   on concrete instances. -/
theorem valid_timestamp_boundaries :
    (∀ s : String, s.data.all isDig = true → s.length = 10 →
      digitsToNat s.data = 946684800 → _is_valid_timestamp s = true) ∧
    (∀ s : String, s.data.all isDig = true → s.length = 10 →
      digitsToNat s.data = 946684799 → _is_valid_timestamp s = false) ∧
    _is_valid_timestamp "2524608000" = true ∧
    _is_valid_timestamp "2524608001" = false ∧
    _is_valid_timestamp "0946684800" = true ∧
    _is_valid_timestamp "00000000001700000000" = true ∧
    _is_valid_timestamp "946684800" = false := by
  refine ⟨?_, ?_, by decide, by decide, by decide, by decide, by decide⟩
  · intro s hall hlen hval
    obtain ⟨l⟩ := s
    have hlen2 : l.length = 10 := hlen
    have hne : l ≠ [] := by
      intro h0
      rw [h0] at hlen2
      cases hlen2
    unfold _is_valid_timestamp
    rw [if_neg (by omega : ¬(String.length ⟨l⟩ < 10 ∨ 20 < String.length ⟨l⟩))]
    rw [show pyParseFloat ⟨l⟩ = some (PyFloat.finite ((digitsToNat l : ℚ))) from
      pyParseFloat_all_dig hne hall]
    rw [show digitsToNat l = 946684800 from hval]
    decide
  · intro s hall hlen hval
    obtain ⟨l⟩ := s
    have hlen2 : l.length = 10 := hlen
    have hne : l ≠ [] := by
      intro h0
      rw [h0] at hlen2
      cases hlen2
    unfold _is_valid_timestamp
    rw [if_neg (by omega : ¬(String.length ⟨l⟩ < 10 ∨ 20 < String.length ⟨l⟩))]
    rw [show pyParseFloat ⟨l⟩ = some (PyFloat.finite ((digitsToNat l : ℚ))) from
      pyParseFloat_all_dig hne hall]
    rw [show digitsToNat l = 946684799 from hval]
    decide

/- Witness for C8: the unique all-numeric 10-character strings at the
   bound and one below it. -/
theorem valid_timestamp_boundaries_witness :
    _is_valid_timestamp "0946684800" = true ∧ _is_valid_timestamp "0946684799" = false :=
  ⟨valid_timestamp_boundaries.1 "0946684800" (by decide) (by decide) (by decide),
   valid_timestamp_boundaries.2.1 "0946684799" (by decide) (by decide) (by decide)⟩

/- All maximal digit runs of the text have length at least 14; the
   accumulator n is the length of the run currently being scanned. -/
def runsOKA : ℕ → List Char → Bool
  | n, [] => n == 0 || decide (14 ≤ n)
  | n, c :: l =>
    if isDig c then runsOKA (n + 1) l
    else ((n == 0 || decide (14 ≤ n)) && runsOKA 0 l)

theorem runsOKA_cons_dig {c : Char} (h : isDig c = true) (k : ℕ) (l : List Char) :
    runsOKA k (c :: l) = runsOKA (k + 1) l := by
  simp [runsOKA, h]

theorem runsOKA_cons_not {c : Char} (h : isDig c = false) (k : ℕ) (l : List Char) :
    runsOKA k (c :: l) = ((k == 0 || decide (14 ≤ k)) && runsOKA 0 l) := by
  simp [runsOKA, h]

theorem leadDigits_cons_dig {c : Char} (h : isDig c = true) (l : List Char) :
    leadDigits (c :: l) = leadDigits l + 1 := by
  simp [leadDigits, List.takeWhile_cons, h]

theorem leadDigits_cons_not {c : Char} (h : isDig c = false) (l : List Char) :
    leadDigits (c :: l) = 0 := by
  simp [leadDigits, List.takeWhile_cons, h]

/- Under runsOKA, the run containing the scan position is empty or long. -/
theorem runsOKA_run_lb :
    ∀ (l : List Char) (k : ℕ), runsOKA k l = true →
      k + leadDigits l = 0 ∨ 14 ≤ k + leadDigits l := by
  intro l
  induction l with
  | nil =>
    intro k h
    simp only [runsOKA, Bool.or_eq_true, beq_iff_eq, decide_eq_true_eq] at h
    rcases h with h | h
    · left; simp [leadDigits, h]
    · right; simp [leadDigits]; omega
  | cons c r ih =>
    intro k h
    cases hc : isDig c with
    | true =>
      rw [runsOKA_cons_dig hc] at h
      have := ih (k + 1) h
      rw [leadDigits_cons_dig hc]
      omega
    | false =>
      rw [runsOKA_cons_not hc] at h
      simp only [Bool.and_eq_true, Bool.or_eq_true, beq_iff_eq, decide_eq_true_eq] at h
      rw [leadDigits_cons_not hc]
      rcases h.1 with h1 | h1
      · left; omega
      · right; omega

/- A match of either pattern needs a word boundary on its left and a
   leading digit run of length 10 to 13 at the position. -/
theorem matchP1_some {prev : Option Char} {l c : List Char} (h : matchP1 prev l = some c) :
    prevNonWord prev = true ∧ 10 ≤ leadDigits l ∧ leadDigits l ≤ 13 := by
  by_cases hcond : prevNonWord prev = true ∧ 10 ≤ leadDigits l ∧ leadDigits l ≤ 13
  · exact hcond
  · simp only [matchP1] at h
    rw [if_neg hcond] at h
    exact Option.noConfusion h

theorem matchP2_some {prev : Option Char} {l c : List Char} (h : matchP2 prev l = some c) :
    prevNonWord prev = true ∧ 10 ≤ leadDigits l ∧ leadDigits l ≤ 13 := by
  by_cases hcond : prevNonWord prev = true ∧ 10 ≤ leadDigits l ∧ leadDigits l ≤ 13
  · exact hcond
  · simp only [matchP2] at h
    have hcond2 : ¬(prevNonWord prev = true ∧ 10 ≤ leadDigits l ∧ leadDigits l ≤ 13 ∧
        nextNonWord (l.drop (leadDigits l)) = true) := by
      intro h2
      exact hcond ⟨h2.1, h2.2.1, h2.2.2.1⟩
    rw [if_neg hcond2] at h
    exact Option.noConfusion h

/- The scan of a text whose maximal digit runs are all of length at least
   14 never fires a pattern whose run must have length 10 to 13. -/
theorem reFindFirst_none
    (step : Option Char → List Char → Option (List Char))
    (hstep : ∀ p l c, step p l = some c →
      prevNonWord p = true ∧ 10 ≤ leadDigits l ∧ leadDigits l ≤ 13) :
    ∀ (l : List Char) (prev : Option Char) (k : ℕ),
      runsOKA k l = true →
      (0 < k → ∃ d, prev = some d ∧ isDig d = true) →
      reFindFirst step prev l = none := by
  intro l
  induction l with
  | nil =>
    intro prev k hr hk
    cases hs : step prev [] with
    | none => exact hs
    | some m =>
      have h2 := (hstep _ _ _ hs).2.1
      simp [leadDigits] at h2
  | cons c r ih =>
    intro prev k hr hk
    have hnone : step prev (c :: r) = none := by
      cases hs : step prev (c :: r) with
      | none => rfl
      | some m =>
        exfalso
        obtain ⟨hpw, h10, h13⟩ := hstep _ _ _ hs
        rcases Nat.eq_zero_or_pos k with hk0 | hkpos
        · subst hk0
          rcases runsOKA_run_lb (c :: r) 0 hr with hlb | hlb <;> omega
        · obtain ⟨d, hd, hdig⟩ := hk hkpos
          rw [hd] at hpw
          simp [prevNonWord, dig_word hdig] at hpw
    have hred : reFindFirst step prev (c :: r) = reFindFirst step (some c) r := by
      show (match step prev (c :: r) with
        | some m => some m
        | none => reFindFirst step (some c) r) = reFindFirst step (some c) r
      rw [hnone]
    rw [hred]
    cases hc : isDig c with
    | true =>
      rw [runsOKA_cons_dig hc] at hr
      exact ih (some c) (k + 1) hr (fun _ => ⟨c, rfl, hc⟩)
    | false =>
      rw [runsOKA_cons_not hc] at hr
      simp only [Bool.and_eq_true] at hr
      exact ih (some c) 0 hr.2 (fun h0 => absurd h0 (by omega))

/- Stripping leading whitespace preserves the long-runs property. -/
theorem runsOKA_dropWhile_ws :
    ∀ {l : List Char}, runsOKA 0 l = true → runsOKA 0 (l.dropWhile isPyWs) = true := by
  intro l
  induction l with
  | nil => intro h; simpa using h
  | cons c r ih =>
    intro h
    cases hw : isPyWs c with
    | false => simpa [List.dropWhile_cons, hw] using h
    | true =>
      have hcd : isDig c = false := ws_not_dig hw
      rw [runsOKA_cons_not hcd] at h
      simp only [Bool.and_eq_true] at h
      simpa [List.dropWhile_cons, hw] using ih h.2

/- Stripping trailing whitespace preserves the long-runs property, for any
   accumulator (whitespace is never a digit, so no run is cut). -/
theorem runsOKA_rstrip :
    ∀ (l : List Char) (k : ℕ), runsOKA k l = true →
      runsOKA k (rstripList isPyWs l) = true := by
  intro l
  induction l with
  | nil => intro k h; exact h
  | cons c r ih =>
    intro k h
    simp only [rstripList]
    cases hc : isDig c with
    | true =>
      have hpc : isPyWs c = false := by
        cases hpc2 : isPyWs c with
        | false => rfl
        | true => simp [ws_not_dig hpc2] at hc
      rw [if_neg]
      · rw [runsOKA_cons_dig hc]
        rw [runsOKA_cons_dig hc] at h
        exact ih (k + 1) h
      · rintro ⟨-, hpc2⟩
        rw [hpc] at hpc2
        cases hpc2
    | false =>
      rw [runsOKA_cons_not hc] at h
      simp only [Bool.and_eq_true] at h
      by_cases hcond : rstripList isPyWs r = [] ∧ isPyWs c = true
      · rw [if_pos hcond]
        exact h.1
      · rw [if_neg hcond]
        rw [runsOKA_cons_not hc]
        simp only [Bool.and_eq_true]
        exact ⟨h.1, ih 0 h.2⟩

theorem runsOKA_pyStrip {s : String} (h : runsOKA 0 s.data = true) :
    runsOKA 0 (pyStrip s).data = true := by
  show runsOKA 0 (rstripList isPyWs (s.data.dropWhile isPyWs)) = true
  exact runsOKA_rstrip _ 0 (runsOKA_dropWhile_ws h)

/- C10.  Both search patterns are anchored on word boundaries, so a
   10-to-13-digit slice of a longer digit run is never extracted: on any
   text in which every maximal run of consecutive digits has length at
   least 14 (runsOKA 0, which also leaves no 10-13-digit run to sit next
   to a decimal point), detect mode recognizes nothing. -/
theorem detect_skips_long_digit_runs :
    ∀ t : String, runsOKA 0 t.data = true → (get_timestamp true t).2 = false := by
  intro t h
  have h2 := runsOKA_pyStrip h
  have hp1 : reFindFirst matchP1 none (pyStrip t).data = none :=
    reFindFirst_none matchP1 (fun _ _ _ hm => matchP1_some hm) ((pyStrip t).data) none 0 h2
      (fun h0 => absurd h0 (by omega))
  have hp2 : reFindFirst matchP2 none (pyStrip t).data = none :=
    reFindFirst_none matchP2 (fun _ _ _ hm => matchP2_some hm) ((pyStrip t).data) none 0 h2
      (fun h0 => absurd h0 (by omega))
  have he : get_timestamp true t = detectScan (pyStrip t) := rfl
  rw [he]
  unfold detectScan
  rw [hp1]
  show (tryPat2 (pyStrip t)).2 = false
  unfold tryPat2
  rw [hp2]

/- Witness for C10: a 14-digit run next to plain words is not recognized. -/
theorem detect_skips_long_digit_runs_witness :
    (get_timestamp true "12345678901234 confirmed").2 = false :=
  detect_skips_long_digit_runs "12345678901234 confirmed" (by decide)
